import Mathlib

/-!
Verification development for the `ac-learn` Learner (src/index.js).

The Learner facade itself (constructor, `crossValidate`, `toJSON`/`fromJSON`,
`getCategoryPartition`, `getStats`, the persistence callbacks) is translated
directly from src/index.js.  Its collaborators live outside the repository
(the `limdu` utilities `PrecisionRecall`, `partitions` and `test`, the
`train-test-split` package, the `serialization` package, and the
`./src/categories` list): those are modelled from the specification's
description of their contracts, and every definition doing so says so in its
doc comment.

Conventions of the embedding:
* JS objects are structures; JS `this`-mutating methods return the updated
  structure (state passing).
* JS numbers appearing in statistics are modelled by `JSNum` (a rational
  together with the special values produced by unguarded division).
* JS object identity of samples is modelled by a dedicated `id` field:
  a dataset whose `id`s are pairwise distinct corresponds to a JS array of
  pairwise distinct sample objects, and `Array.prototype.includes`
  (identity membership) becomes list membership.
* Fallible operations return `Except LearnerError` / `Option`.
-/

/-- The fragment of JS floating-point values reachable by the statistics
code: rationals plus `NaN` and the two infinities (the results of unguarded
division by zero).  `-0` is identified with `0`. -/
inductive JSNum where
  | nan : JSNum
  | inf : JSNum
  | ninf : JSNum
  | num : ℚ → JSNum
deriving DecidableEq, Repr

/-- JS addition on the modelled fragment. -/
def jsAdd : JSNum → JSNum → JSNum
  | .nan, _ => .nan
  | _, .nan => .nan
  | .inf, .ninf => .nan
  | .ninf, .inf => .nan
  | .inf, _ => .inf
  | _, .inf => .inf
  | .ninf, _ => .ninf
  | _, .ninf => .ninf
  | .num a, .num b => .num (a + b)

/-- JS multiplication on the modelled fragment. -/
def jsMul : JSNum → JSNum → JSNum
  | .nan, _ => .nan
  | _, .nan => .nan
  | .inf, .inf => .inf
  | .inf, .ninf => .ninf
  | .ninf, .inf => .ninf
  | .ninf, .ninf => .inf
  | .inf, .num b => if b = 0 then .nan else if 0 < b then .inf else .ninf
  | .num a, .inf => if a = 0 then .nan else if 0 < a then .inf else .ninf
  | .ninf, .num b => if b = 0 then .nan else if 0 < b then .ninf else .inf
  | .num a, .ninf => if a = 0 then .nan else if 0 < a then .ninf else .inf
  | .num a, .num b => .num (a * b)

/-- JS division on the modelled fragment: in particular `0/0 = NaN` and
`a/0 = ±Infinity` for `a ≠ 0` — division is deliberately unguarded, exactly
as in the source. -/
def jsDiv : JSNum → JSNum → JSNum
  | .nan, _ => .nan
  | _, .nan => .nan
  | .inf, .inf => .nan
  | .inf, .ninf => .nan
  | .ninf, .inf => .nan
  | .ninf, .ninf => .nan
  | .inf, .num b => if 0 ≤ b then .inf else .ninf
  | .ninf, .num b => if 0 ≤ b then .ninf else .inf
  | .num _, .inf => .num 0
  | .num _, .ninf => .num 0
  | .num a, .num b =>
    if b = 0 then (if a = 0 then .nan else if 0 < a then .inf else .ninf)
    else .num (a / b)

/-- Division of two natural counters as JS performs it. -/
def jsDivN (a b : ℕ) : JSNum := jsDiv (.num a) (.num b)

/-- Sum of a list of JS numbers (left fold starting at `0`, as `+=` does). -/
def jsSum (l : List JSNum) : JSNum := l.foldl jsAdd (.num 0)

/-- A labelled data point `{input, output}`.  The extra `id` field models JS
object identity (each JS sample object in the dataset array is a distinct
reference; `id` makes that distinctness expressible). -/
structure Sample where
  id : ℕ
  input : ℕ
  output : ℕ
deriving DecidableEq, Repr

/-- Fold-local confusion counts retained by the macro-averaging accumulator.
Modelled from the spec: the macro accumulator "must retain fold-local counts
to later average fold-local ratios, not just pooled counts". -/
structure FoldCounts where
  TP : ℕ
  TN : ℕ
  FP : ℕ
  FN : ℕ
  count : ℕ
deriving DecidableEq, Repr

/-- The all-zero fold bucket. -/
def FoldCounts.zero : FoldCounts := ⟨0, 0, 0, 0, 0⟩

/-- Modelled from the spec: one `(predicted, actual)` observation scored
one-vs-rest over the category list `cats` — a correct prediction is a TP for
its class and a TN for each of the other `|cats| - 1` classes; a wrong
prediction is an FP for the predicted class, an FN for the true class and a
TN for the remaining `|cats| - 2` classes. -/
def FoldCounts.update (cats : List ℕ) (fc : FoldCounts) (predicted actual : ℕ) : FoldCounts :=
  if predicted = actual then
    { fc with TP := fc.TP + 1, TN := fc.TN + (cats.length - 1), count := fc.count + 1 }
  else
    { fc with FP := fc.FP + 1, FN := fc.FN + 1, TN := fc.TN + (cats.length - 2),
              count := fc.count + 1 }

/-- Modelled from the spec: `limdu`'s `PrecisionRecall` statistics
accumulator — pooled confusion counts, a confusion record (the list of
observed `(predicted, actual)` pairs), the retained fold-local buckets used
for macro averaging, and the derived statistic fields that
`calculateStats` / `calculateMacroAverageStats` fill in. -/
structure PrecisionRecall where
  TP : ℕ
  TN : ℕ
  FP : ℕ
  FN : ℕ
  count : ℕ
  confusion : List (ℕ × ℕ)
  folds : List FoldCounts
  Precision : JSNum
  Recall : JSNum
  Accuracy : JSNum
  F1 : JSNum
deriving DecidableEq, Repr

/-- A freshly constructed accumulator (`new PrecisionRecall()`): all counts
zero, no folds, zeroed statistic fields. -/
def PrecisionRecall.empty : PrecisionRecall :=
  { TP := 0, TN := 0, FP := 0, FN := 0, count := 0, confusion := [], folds := [],
    Precision := .num 0, Recall := .num 0, Accuracy := .num 0, F1 := .num 0 }

/-- Modelled from the spec: feeding one `(predicted, actual)` pair into the
pooled counts of the accumulator (micro scope), recording the pair in the
confusion record. -/
def PrecisionRecall.update (cats : List ℕ) (pr : PrecisionRecall)
    (predicted actual : ℕ) : PrecisionRecall :=
  if predicted = actual then
    { pr with TP := pr.TP + 1, TN := pr.TN + (cats.length - 1), count := pr.count + 1,
              confusion := pr.confusion ++ [(predicted, actual)] }
  else
    { pr with FP := pr.FP + 1, FN := pr.FN + 1, TN := pr.TN + (cats.length - 2),
              count := pr.count + 1, confusion := pr.confusion ++ [(predicted, actual)] }

/-- Precision of a single fold's own counts. -/
def FoldCounts.precision (fc : FoldCounts) : JSNum := jsDivN fc.TP (fc.TP + fc.FP)

/-- Recall of a single fold's own counts. -/
def FoldCounts.recall (fc : FoldCounts) : JSNum := jsDivN fc.TP (fc.TP + fc.FN)

/-- Accuracy of a single fold's own counts. -/
def FoldCounts.accuracy (fc : FoldCounts) : JSNum :=
  jsDivN (fc.TP + fc.TN) (fc.TP + fc.TN + fc.FP + fc.FN)

/-- F1 of a single fold's own counts, `2·(Pr·R)/(Pr+R)`. -/
def FoldCounts.f1 (fc : FoldCounts) : JSNum :=
  jsDiv (jsMul (.num 2) (jsMul fc.precision fc.recall)) (jsAdd fc.precision fc.recall)

/-- Modelled from the spec: `calculateStats` derives the micro-averaged
statistics directly from the pooled confusion counts. -/
def PrecisionRecall.calculateStats (pr : PrecisionRecall) : PrecisionRecall :=
  let p := jsDivN pr.TP (pr.TP + pr.FP)
  let r := jsDivN pr.TP (pr.TP + pr.FN)
  { pr with Precision := p, Recall := r,
            Accuracy := jsDivN (pr.TP + pr.TN) (pr.TP + pr.TN + pr.FP + pr.FN),
            F1 := jsDiv (jsMul (.num 2) (jsMul p r)) (jsAdd p r) }

/-- Modelled from the spec: `calculateMacroAverageStats(numFolds)` sets each
statistic to the arithmetic mean of the folds' own statistics (each fold's
ratios computed independently from its retained bucket, then divided by the
fold count) — never from the pooled counts. -/
def PrecisionRecall.calculateMacroAverageStats (pr : PrecisionRecall)
    (numFolds : ℕ) : PrecisionRecall :=
  { pr with
    Precision := jsDiv (jsSum (pr.folds.map FoldCounts.precision)) (.num numFolds),
    Recall := jsDiv (jsSum (pr.folds.map FoldCounts.recall)) (.num numFolds),
    Accuracy := jsDiv (jsSum (pr.folds.map FoldCounts.accuracy)) (.num numFolds),
    F1 := jsDiv (jsSum (pr.folds.map FoldCounts.f1)) (.num numFolds) }

/-- The read-only report `fullStats()` returns. -/
structure FullStats where
  TP : ℕ
  TN : ℕ
  FP : ℕ
  FN : ℕ
  count : ℕ
  confusion : List (ℕ × ℕ)
  Precision : JSNum
  Recall : JSNum
  Accuracy : JSNum
  F1 : JSNum
deriving DecidableEq, Repr

/-- Modelled from the spec: `fullStats()` returns the complete report with
the confusion record included. -/
def PrecisionRecall.fullStats (pr : PrecisionRecall) : FullStats :=
  ⟨pr.TP, pr.TN, pr.FP, pr.FN, pr.count, pr.confusion,
   pr.Precision, pr.Recall, pr.Accuracy, pr.F1⟩

/-- The external classifier capability together with its serialization
contract, as consumed by the Learner: a builder (`init` is what calling the
builder function returns), supervised batch training, inference, and the
`serialization` package's `toString`/`fromString` pair for this builder
configuration.  All four operations are opaque collaborators; `σ` is the
classifier's internal state. -/
structure ClassifierSpec (σ : Type) where
  init : σ
  trainBatch : σ → List Sample → σ
  classify : σ → ℕ → ℕ
  serialize : σ → String
  deserialize : String → Option σ

/-- Modelled from the spec: the `train-test-split` package — a deterministic
ordinal split where the training set is the first `round(ratio · |dataset|)`
samples and the test set is the rest (the package validates
`ratio ∈ (0,1)`; the model is used on valid ratios only, which the theorems
assume). -/
def trainTestSplit (ds : List Sample) (ratio : ℚ) : List Sample × List Sample :=
  let n := (round (ratio * ds.length)).toNat
  (ds.take n, ds.drop n)

/-- Modelled from the spec: group `i` of the k-fold partition — the
contiguous slice from `⌊n·i/k⌋` to `⌊n·(i+1)/k⌋`, giving `k` contiguous
groups whose sizes differ by at most one. -/
def kFoldGroup (ds : List Sample) (k i : ℕ) : List Sample :=
  (ds.take (ds.length * (i + 1) / k)).drop (ds.length * i / k)

/-- Modelled from the spec: `limdu`'s `partitions` utility / the
Partitioner's `kFold` — the list of `k` splits where split `i` has group `i`
as test set and all other groups, concatenated in original relative order,
as training set. -/
def partitions (ds : List Sample) (k : ℕ) : List (List Sample × List Sample) :=
  (List.range k).map fun i =>
    ((((List.range k).filter (fun j => j ≠ i)).map (kFoldGroup ds k)).flatten,
     kFoldGroup ds k i)

/-- Modelled from the spec: `limdu`'s `test(classifier, testSet, verbosity,
microAvg, macroAvg)` — classify every test sample with the (already trained)
classifier state `c`, feed each `(predicted, actual)` pair into the micro
accumulator's pooled counts and into a fresh fold-local bucket, and append
that bucket to the macro accumulator's retained folds. -/
def testFn {σ : Type} (cats : List ℕ) (cs : ClassifierSpec σ) (c : σ)
    (testSet : List Sample) (micro mAcc : PrecisionRecall) :
    PrecisionRecall × PrecisionRecall :=
  let pairs := testSet.map fun s => (cs.classify c s.input, s.output)
  (pairs.foldl (fun m p => m.update cats p.1 p.2) micro,
   { mAcc with
     folds := mAcc.folds ++ [pairs.foldl (fun fc p => fc.update cats p.1 p.2) FoldCounts.zero] })

/-- The Learner's state (src/index.js, fields assigned by the constructor
and by `crossValidate`).  `classifierBuilder` carries the classifier
capability; `classifier` is the current classifier state. -/
structure Learner (σ : Type) where
  dataset : List Sample
  trainSplit : ℚ
  trainSet : List Sample
  testSet : List Sample
  classifier : σ
  classifierBuilder : ClassifierSpec σ
  macroAvg : Option PrecisionRecall
  microAvg : Option PrecisionRecall

/-- The constructor (src/index.js:18-30): record the dataset and ratio,
split immediately via `train-test-split`, build a fresh classifier.  No
statistics exist yet. -/
def Learner.construct {σ : Type} (dataset : List Sample) (trainSplit : ℚ)
    (classifier : ClassifierSpec σ) : Learner σ :=
  let p := trainTestSplit dataset trainSplit
  { dataset := dataset, trainSplit := trainSplit, trainSet := p.1, testSet := p.2,
    classifier := classifier.init, classifierBuilder := classifier,
    macroAvg := none, microAvg := none }

/-- One iteration of the `partitions` callback in `crossValidate`
(src/index.js:105-114): `this.train(trainSet)` (which delegates to
`classifier.trainBatch`, the spinner being cosmetic) followed by
`test(this.classifier, testSet, …, microAvg, macroAvg)`.  The accumulator
triple is `(classifier state, microAvg, macroAvg)`. -/
def cvStep {σ : Type} (cats : List ℕ) (cs : ClassifierSpec σ)
    (acc : σ × PrecisionRecall × PrecisionRecall)
    (split : List Sample × List Sample) : σ × PrecisionRecall × PrecisionRecall :=
  let c' := cs.trainBatch acc.1 split.1
  let t := testFn cats cs c' split.2 acc.2.1 acc.2.2
  (c', t.1, t.2)

/-- The result object `crossValidate` returns (src/index.js:117-121). -/
structure CVResult where
  macroAvg : FullStats
  microAvg : FullStats
deriving DecidableEq, Repr

/-- Method `crossValidate(numOfFolds)` (src/index.js:90-122): fresh micro and macro
accumulators, one `cvStep` per split produced by `partitions`, then
`calculateMacroAverageStats(numOfFolds)` on the macro accumulator and
`calculateStats()` on the micro accumulator; the updated accumulators are
stored on the Learner and their `fullStats()` are returned.  Note that the
Learner's single classifier state is threaded through every fold and that
`trainSet`/`testSet` are never assigned. -/
def Learner.crossValidate {σ : Type} (cats : List ℕ) (l : Learner σ)
    (numOfFolds : ℕ) : Learner σ × CVResult :=
  let splits := partitions l.dataset numOfFolds
  let res := splits.foldl (cvStep cats l.classifierBuilder)
    (l.classifier, PrecisionRecall.empty, PrecisionRecall.empty)
  let mac := res.2.2.calculateMacroAverageStats numOfFolds
  let mic := res.2.1.calculateStats
  ({ l with classifier := res.1, macroAvg := some mac, microAvg := some mic },
   { macroAvg := mac.fullStats, microAvg := mic.fullStats })

/-- Method `classify(data)` (src/index.js:86-88). -/
def Learner.classifyData {σ : Type} (l : Learner σ) (data : ℕ) : ℕ :=
  l.classifierBuilder.classify l.classifier data

/-- The error taxonomy of the spec, as the Learner's failure modes surface
in the embedding.  `UnknownCategory` models the `TypeError` thrown by
`getCategoryPartition` when a sample's output is not a key of the category
table. -/
inductive LearnerError where
  | NoStatsAvailable : LearnerError
  | MissingClassifier : LearnerError
  | DeserializationFailure : LearnerError
  | UnknownCategory : LearnerError
deriving DecidableEq, Repr

/-- Method `serializeClassifier()` (src/index.js:58-60): `serialize.toString(this.classifier,
this.classifierBuilder)`, modelled through the builder's serialization
contract. -/
def Learner.serializeClassifier {σ : Type} (l : Learner σ) : String :=
  l.classifierBuilder.serialize l.classifier

/-- The in-memory JSON object of a Learner.  Absent JS properties are
`none`; `toJSON` emits `macroAvg`/`microAvg` only when they exist, and an
arbitrary input to `fromJSON` may lack any property. -/
structure LearnerJSON (σ : Type) where
  classifier : Option String
  classifierBuilder : Option (ClassifierSpec σ)
  dataset : Option (List Sample)
  trainSplit : Option ℚ
  trainSet : Option (List Sample)
  testSet : Option (List Sample)
  macroAvg : Option PrecisionRecall
  microAvg : Option PrecisionRecall

/-- Method `toJSON()` (src/index.js:128-141): serialize the classifier and emit
every field, the two accumulators only when present. -/
def Learner.toJSON {σ : Type} (l : Learner σ) : LearnerJSON σ :=
  { classifier := some l.serializeClassifier,
    classifierBuilder := some l.classifierBuilder,
    dataset := some l.dataset,
    trainSplit := some l.trainSplit,
    trainSet := some l.trainSet,
    testSet := some l.testSet,
    macroAvg := l.macroAvg,
    microAvg := l.microAvg }

/-- Static method `Learner.fromJSON(json)` (src/index.js:143-161): construct a Learner
from `json.dataset`/`json.trainSplit` (module defaults when absent, the
default train split being `0.8`), copy the allowed properties
(`classifierBuilder`, `trainSet`, `testSet`, `macroAvg`, `microAvg`) when
present, then replace the classifier by deserializing `json.classifier`.
When the `classifier` property is absent, `serialize.fromString(undefined)`
throws — the spec's `MissingClassifier`; malformed data is the spec's
`DeserializationFailure`.  Either way no Learner is returned. -/
def Learner.fromJSON {σ : Type} (defaultDataset : List Sample)
    (defaultBuilder : ClassifierSpec σ) (json : LearnerJSON σ) :
    Except LearnerError (Learner σ) :=
  let l0 := Learner.construct (json.dataset.getD defaultDataset)
    (json.trainSplit.getD (4 / 5)) defaultBuilder
  let l1 : Learner σ :=
    { l0 with
      classifierBuilder := json.classifierBuilder.getD l0.classifierBuilder,
      trainSet := json.trainSet.getD l0.trainSet,
      testSet := json.testSet.getD l0.testSet,
      macroAvg := json.macroAvg,
      microAvg := json.microAvg }
  match json.classifier with
  | none => .error .MissingClassifier
  | some s =>
    match l1.classifierBuilder.deserialize s with
    | none => .error .DeserializationFailure
    | some c => .ok { l1 with classifier := c }

/-- One category's row of the partition table built by
`getCategoryPartition` (src/index.js:166-170). -/
structure CatCounts where
  overall : ℕ
  test : ℕ
  train : ℕ
deriving DecidableEq, Repr

/-- Componentwise sum of two rows. -/
def addCC (a b : CatCounts) : CatCounts :=
  ⟨a.overall + b.overall, a.test + b.test, a.train + b.train⟩

/-- Association-list lookup for category tables (JS property access
`res[cat]`). -/
def lookupCat : List (ℕ × CatCounts) → ℕ → Option CatCounts
  | [], _ => none
  | p :: r, c => if p.1 = c then some p.2 else lookupCat r c

/-- The increments `getCategoryPartition` applies to the row of one
sample's output (src/index.js:173-175): `++overall`, `++train` when the
identity-membership `includes` check on the training set succeeds, `++test`
likewise for the test set. -/
def bumpEntry (trainSet testSet : List Sample) (d : Sample) (cc : CatCounts) : CatCounts :=
  { overall := cc.overall + 1,
    train := cc.train + (if d ∈ trainSet then 1 else 0),
    test := cc.test + (if d ∈ testSet then 1 else 0) }

/-- The body of the `dataset.forEach` in `getCategoryPartition`
(src/index.js:172-176): `++res[data.output].overall`, plus the train/test
increments guarded by the identity-membership `includes` checks.  When
`data.output` is not a key of the table, the JS increment throws
(`none`). -/
def stepSample (trainSet testSet : List Sample)
    (res : Option (List (ℕ × CatCounts))) (d : Sample) :
    Option (List (ℕ × CatCounts)) :=
  match res with
  | none => none
  | some r =>
    if (lookupCat r d.output).isSome then
      some (r.map fun p =>
        if p.1 = d.output then (p.1, bumpEntry trainSet testSet d p.2) else p)
    else none

/-- Method `getCategoryPartition()` (src/index.js:163-178): initialise a zero row
per category, then walk the dataset once incrementing the row of each
sample's output.  The method reads but never writes the Learner, which the
state-passing result makes explicit. -/
def Learner.getCategoryPartition {σ : Type} (cats : List ℕ) (l : Learner σ) :
    Learner σ × Option (List (ℕ × CatCounts)) :=
  (l, l.dataset.foldl (stepSample l.trainSet l.testSet)
    (some (cats.map fun c => (c, ⟨0, 0, 0⟩))))

/-- The consolidated report `getStats()` returns (src/index.js:194-210). -/
structure StatsReport where
  TP : ℕ
  TN : ℕ
  FP : ℕ
  FN : ℕ
  confusion : List (ℕ × ℕ)
  Precision : JSNum
  Accuracy : JSNum
  Recall : JSNum
  F1 : JSNum
  Specificity : JSNum
  totalCount : ℕ
  trainCount : ℕ
  testCount : ℕ
  categoryPartition : List (ℕ × CatCounts)
deriving DecidableEq, Repr

/-- Method `getStats()` (src/index.js:180-211): destructure `this.microAvg`
(destructuring `undefined` throws — the spec's `NoStatsAvailable`), then
assemble the report, computing `Specificity = TN / (FP + TN)` by hand with
no guard on the denominator and attaching `getCategoryPartition()`. -/
def Learner.getStats {σ : Type} (cats : List ℕ) (l : Learner σ) :
    Except LearnerError StatsReport :=
  match l.microAvg with
  | none => .error .NoStatsAvailable
  | some m =>
    match (l.getCategoryPartition cats).2 with
    | none => .error .UnknownCategory
    | some part =>
      .ok { TP := m.TP, TN := m.TN, FP := m.FP, FN := m.FN,
            confusion := m.confusion,
            Precision := m.Precision, Accuracy := m.Accuracy,
            Recall := m.Recall, F1 := m.F1,
            Specificity := jsDivN m.TN (m.FP + m.TN),
            totalCount := m.count,
            trainCount := l.trainSet.length, testCount := l.testSet.length,
            categoryPartition := part }

/-- The settlement state of a JS promise; once settled, further
`resolve`/`reject` calls are no-ops. -/
inductive PromiseState (ε α : Type) where
  | pending : PromiseState ε α
  | fulfilled : α → PromiseState ε α
  | rejected : ε → PromiseState ε α
deriving DecidableEq, Repr

/-- Promise `reject(e)`: settles a pending promise, no-op otherwise. -/
def PromiseState.reject {ε α : Type} (st : PromiseState ε α) (e : ε) :
    PromiseState ε α :=
  match st with
  | .pending => .rejected e
  | s => s

/-- Promise `resolve(a)`: settles a pending promise, no-op otherwise. -/
def PromiseState.resolve {ε α : Type} (st : PromiseState ε α) (a : α) :
    PromiseState ε α :=
  match st with
  | .pending => .fulfilled a
  | s => s

/-- How one run of an fs callback ends: it either returns normally, leaving
the promise in the given state, or throws an uncaught exception after
leaving the promise in the given state. -/
inductive CallbackRun (ε α : Type) where
  | ok : PromiseState ε α → CallbackRun ε α
  | threw : PromiseState ε α → CallbackRun ε α
deriving DecidableEq, Repr

/-- The `writeFile` callback of `serializeAndSaveClassifier`
(src/index.js:62-70): `if (err) reject(err); resolve(data)` — no `return`
after the reject, so `resolve` is always reached, but settling is
first-wins. -/
def saveCallback {ε : Type} (data : String) (err : Option ε) :
    PromiseState ε String :=
  let st : PromiseState ε String := .pending
  let st := match err with
    | some e => st.reject e
    | none => st
  st.resolve data

/-- The `readFile` callback of `loadAndDeserializeClassifier`
(src/index.js:76-84): `if (err) reject(err);` with no `return`, then
unconditionally `this.deserializeClassifier(data)` — on a read failure
`data` is `undefined`, the deserializer throws, and the exception escapes
the callback (`threw`); otherwise the promise is resolved with the
deserialized classifier. -/
def loadCallback {σ ε : Type} (cs : ClassifierSpec σ) (err : Option ε)
    (data : Option String) : CallbackRun ε σ :=
  let st : PromiseState ε σ := .pending
  let st := match err with
    | some e => st.reject e
    | none => st
  match data.bind cs.deserialize with
  | none => .threw st
  | some c => .ok (st.resolve c)

/-!  Claim-side descriptions of the cross-validation run, used to compare
the source's fold loop with what the claims say it does. -/

/-- The claims' description of the per-fold `(predicted, actual)` pairs: for
each split in turn, train on the split's training set (the classifier state
chaining from fold to fold, starting from `c`) and classify the split's test
set. -/
def cvFoldPairs {σ : Type} (cs : ClassifierSpec σ) :
    σ → List (List Sample × List Sample) → List (List (ℕ × ℕ))
  | _, [] => []
  | c, split :: rest =>
    let c' := cs.trainBatch c split.1
    (split.2.map fun s => (cs.classify c' s.input, s.output)) ::
      cvFoldPairs cs c' rest

/-- The classifier state entering fold `i`'s training call, starting from
state `c` before fold `0`. -/
def stateBeforeFold {σ : Type} (cs : ClassifierSpec σ) :
    σ → List (List Sample × List Sample) → ℕ → σ
  | c, _, 0 => c
  | c, [], _ + 1 => c
  | c, split :: rest, i + 1 => stateBeforeFold cs (cs.trainBatch c split.1) rest i

/-- Feeding a list of pairs into the pooled counts of an accumulator, one
`update` per pair. -/
def microUpdates (cats : List ℕ) (micro : PrecisionRecall)
    (pairs : List (ℕ × ℕ)) : PrecisionRecall :=
  pairs.foldl (fun m p => m.update cats p.1 p.2) micro

/-- The fold-local bucket obtained by feeding a fold's pairs into a zero
bucket. -/
def foldBucket (cats : List ℕ) (pairs : List (ℕ × ℕ)) : FoldCounts :=
  pairs.foldl (fun fc p => fc.update cats p.1 p.2) FoldCounts.zero

/-- The fold loop of `crossValidate` step by step: threading the classifier
chains the states, the micro accumulator receives every fold's pairs pooled
(flattened), and the macro accumulator collects one bucket per fold. -/
theorem cv_foldl_eq {σ : Type} (cats : List ℕ) (cs : ClassifierSpec σ) :
    ∀ (splits : List (List Sample × List Sample)) (c : σ)
      (micro mAcc : PrecisionRecall),
      splits.foldl (cvStep cats cs) (c, micro, mAcc) =
        (stateBeforeFold cs c splits splits.length,
         microUpdates cats micro (cvFoldPairs cs c splits).flatten,
         { mAcc with
           folds := mAcc.folds ++ (cvFoldPairs cs c splits).map (foldBucket cats) }) := by
  intro splits
  induction splits with
  | nil =>
    intro c micro mAcc
    simp [stateBeforeFold, cvFoldPairs, microUpdates]
  | cons split rest ih =>
    intro c micro mAcc
    rw [List.foldl_cons]
    rw [show cvStep cats cs (c, micro, mAcc) split =
      (cs.trainBatch c split.1,
       microUpdates cats micro
         (split.2.map fun s => (cs.classify (cs.trainBatch c split.1) s.input, s.output)),
       { mAcc with
         folds := mAcc.folds ++
           [foldBucket cats
             (split.2.map fun s => (cs.classify (cs.trainBatch c split.1) s.input, s.output))] })
      from rfl]
    rw [ih]
    simp only [cvFoldPairs, stateBeforeFold, List.length_cons, List.flatten_cons,
      List.map_cons, Prod.mk.injEq]
    refine ⟨trivial, ?_, ?_⟩
    · simp [microUpdates, List.foldl_append]
    · simp

/-- Function `cvFoldPairs` yields one pair list per split. -/
theorem cvFoldPairs_length {σ : Type} (cs : ClassifierSpec σ) :
    ∀ (splits : List (List Sample × List Sample)) (c : σ),
      (cvFoldPairs cs c splits).length = splits.length := by
  intro splits
  induction splits with
  | nil => intro c; rfl
  | cons s rest ih => intro c; simp [cvFoldPairs, ih]

/-- The final micro accumulator `crossValidate(k)` computes: every fold's
pairs pooled into one fresh accumulator, then `calculateStats()`. -/
def cvMicroFinal {σ : Type} (cats : List ℕ) (l : Learner σ) (k : ℕ) : PrecisionRecall :=
  (microUpdates cats PrecisionRecall.empty
    (cvFoldPairs l.classifierBuilder l.classifier (partitions l.dataset k)).flatten
  ).calculateStats

/-- The final macro accumulator `crossValidate(k)` computes: one retained
bucket per fold, then `calculateMacroAverageStats(k)`. -/
def cvMacroFinal {σ : Type} (cats : List ℕ) (l : Learner σ) (k : ℕ) : PrecisionRecall :=
  (PrecisionRecall.calculateMacroAverageStats
    { PrecisionRecall.empty with
      folds := (cvFoldPairs l.classifierBuilder l.classifier
        (partitions l.dataset k)).map (foldBucket cats) } k)

/-- Closed form of `crossValidate`: the stored and returned accumulators are
exactly `cvMacroFinal`/`cvMicroFinal`, the classifier ends in the state
chained through all folds, and no other Learner field changes. -/
theorem crossValidate_eq {σ : Type} (cats : List ℕ) (l : Learner σ) (k : ℕ) :
    l.crossValidate cats k =
      ({ l with
         classifier := stateBeforeFold l.classifierBuilder l.classifier
           (partitions l.dataset k) (partitions l.dataset k).length,
         macroAvg := some (cvMacroFinal cats l k),
         microAvg := some (cvMicroFinal cats l k) },
       { macroAvg := (cvMacroFinal cats l k).fullStats,
         microAvg := (cvMicroFinal cats l k).fullStats }) := by
  show (let splits := partitions l.dataset k
        let res := splits.foldl (cvStep cats l.classifierBuilder)
          (l.classifier, PrecisionRecall.empty, PrecisionRecall.empty)
        let mac := res.2.2.calculateMacroAverageStats k
        let mic := res.2.1.calculateStats
        ({ l with classifier := res.1, macroAvg := some mac, microAvg := some mic },
         ({ macroAvg := mac.fullStats, microAvg := mic.fullStats } : CVResult))) = _
  simp only [cv_foldl_eq]
  have hfolds : PrecisionRecall.empty.folds = [] := rfl
  simp [hfolds, cvMicroFinal, cvMacroFinal]

/-- Claim C1: for every dataset and fold count `k`, `crossValidate(k)` runs
`k` sequential train-and-test passes, one per partition, feeding each fold's
`(predicted, actual)` pairs into both the pooled micro accumulator and the
macro accumulator's per-fold bucket, and after all folds calls
`calculateMacroAverageStats(k)` on the macro accumulator and
`calculateStats()` on the micro accumulator, returning
`{macroAvg: macroAcc.fullStats(), microAvg: microAcc.fullStats()}`. -/
theorem crossValidate_pipeline {σ : Type} (cats : List ℕ) (l : Learner σ) (k : ℕ) :
    (partitions l.dataset k).length = k ∧
    (cvFoldPairs l.classifierBuilder l.classifier (partitions l.dataset k)).length = k ∧
    (l.crossValidate cats k).2 =
      { macroAvg := (PrecisionRecall.calculateMacroAverageStats
          { PrecisionRecall.empty with
            folds := (cvFoldPairs l.classifierBuilder l.classifier
              (partitions l.dataset k)).map (foldBucket cats) } k).fullStats,
        microAvg := (PrecisionRecall.calculateStats
          (microUpdates cats PrecisionRecall.empty
            (cvFoldPairs l.classifierBuilder l.classifier
              (partitions l.dataset k)).flatten)).fullStats } := by
  have hlen : (partitions l.dataset k).length = k := by simp [partitions]
  refine ⟨hlen, by rw [cvFoldPairs_length, hlen], ?_⟩
  rw [crossValidate_eq]
  rfl

/-- Claim C2 (amended): `crossValidate` leaves `dataset`, `trainSplit`,
`trainSet` and `testSet` untouched (it never assigns the split fields, which
therefore keep the constructor split), sets `classifier` to the state
threaded through all folds, and stores the two newly computed accumulators
in `macroAvg`/`microAvg`. -/
theorem crossValidate_frame {σ : Type} (cats : List ℕ) (l : Learner σ) (k : ℕ) :
    (l.crossValidate cats k).1.dataset = l.dataset ∧
    (l.crossValidate cats k).1.trainSplit = l.trainSplit ∧
    (l.crossValidate cats k).1.trainSet = l.trainSet ∧
    (l.crossValidate cats k).1.testSet = l.testSet ∧
    (l.crossValidate cats k).1.macroAvg = some (cvMacroFinal cats l k) ∧
    (l.crossValidate cats k).1.microAvg = some (cvMicroFinal cats l k) := by
  rw [crossValidate_eq]
  exact ⟨rfl, rfl, rfl, rfl, rfl, rfl⟩

/-!  Concrete fixtures used by counterexamples and witnesses. -/

/-- A concrete sample (distinct `id`s model distinct JS objects). -/
def sample0 : Sample := ⟨0, 10, 0⟩

/-- A concrete sample. -/
def sample1 : Sample := ⟨1, 11, 0⟩

/-- A concrete sample. -/
def sample2 : Sample := ⟨2, 12, 1⟩

/-- A concrete sample. -/
def sample3 : Sample := ⟨3, 13, 1⟩

/-- A concrete four-sample dataset over the two categories `0` and `1`. -/
def ds4 : List Sample := [sample0, sample1, sample2, sample3]

/-- A trivial stateless classifier collaborator: training does nothing and
everything is classified into category `0`. -/
def unitClassifier : ClassifierSpec Unit :=
  { init := (), trainBatch := fun _ _ => (), classify := fun _ _ => 0,
    serialize := fun _ => "", deserialize := fun _ => some () }

/-- A classifier collaborator whose state accumulates every sample it was
ever trained on (batch training adds to the model, as incremental limdu
classifiers do). -/
def accClassifier : ClassifierSpec (List Sample) :=
  { init := [], trainBatch := fun s batch => s ++ batch,
    classify := fun s _ => s.length,
    serialize := fun _ => "", deserialize := fun _ => some [] }

/-- A concrete Learner over `ds4` with a `0.75` train split. -/
def learner34 : Learner Unit := Learner.construct ds4 (3 / 4) unitClassifier

/-- The concrete constructor split of `learner34`:
`round(0.75 · 4) = 3` training samples. -/
theorem learner34_split :
    learner34.trainSet = [sample0, sample1, sample2] ∧
    learner34.testSet = [sample3] := by
  have h : (round ((3 / 4 : ℚ) * (ds4.length : ℕ))).toNat = 3 := by
    rw [round_eq]; norm_num [ds4]; rfl
  constructor
  · show (trainTestSplit ds4 (3 / 4)).1 = _
    simp only [trainTestSplit, h]
    rfl
  · show (trainTestSplit ds4 (3 / 4)).2 = _
    simp only [trainTestSplit, h]
    rfl

/-- Claim C2 (counterexample): on `learner34` with two folds,
`crossValidate` returns the Learner with `trainSet`/`testSet` exactly as the
constructor left them — and that `trainSet` is none of the fold partitions'
training sets, refuting "trainSet/testSet reflect the fold partitions rather
than the original constructor split". -/
theorem crossValidate_keeps_constructor_split_counterexample :
    (learner34.crossValidate [0, 1] 2).1.trainSet = learner34.trainSet ∧
    (learner34.crossValidate [0, 1] 2).1.testSet = learner34.testSet ∧
    learner34.trainSet = [sample0, sample1, sample2] ∧
    (learner34.crossValidate [0, 1] 2).1.trainSet ≠
      ((partitions ds4 2).getD 0 ([], [])).1 ∧
    (learner34.crossValidate [0, 1] 2).1.trainSet ≠
      ((partitions ds4 2).getD 1 ([], [])).1 := by
  refine ⟨rfl, rfl, learner34_split.1, ?_, ?_⟩ <;>
  · rw [show (learner34.crossValidate [0, 1] 2).1.trainSet = learner34.trainSet from rfl,
      learner34_split.1]
    decide

/-- The pairs of fold `i` are computed by classifying with the classifier
state obtained by training the state entering fold `i` — which is the state
chained through folds `0..i-1`, not a fresh one. -/
theorem cvFoldPairs_getD {σ : Type} (cs : ClassifierSpec σ) :
    ∀ (splits : List (List Sample × List Sample)) (c : σ) (i : ℕ),
      i < splits.length →
      (cvFoldPairs cs c splits).getD i [] =
        ((splits.getD i ([], [])).2).map fun s =>
          (cs.classify
            (cs.trainBatch (stateBeforeFold cs c splits i) (splits.getD i ([], [])).1)
            s.input, s.output) := by
  intro splits
  induction splits with
  | nil => intro c i h; simp at h
  | cons sp rest ih =>
    intro c i h
    cases i with
    | zero => simp [cvFoldPairs, stateBeforeFold]
    | succ j =>
      simp only [cvFoldPairs, List.getD_cons_succ, stateBeforeFold]
      exact ih _ j (by simpa using h)

/-- Claim C5 (amended): `crossValidate` re-uses the Learner's single
classifier instance with no per-fold re-initialization: the state entering
fold `i`'s training call is the state left by training on folds `0..i-1`
(starting from the classifier the Learner held at call time), fold `i`'s
predictions are made with that chained state trained on fold `i`'s training
set, and the Learner's final classifier is the state chained through all
folds.  Freshness per fold holds only if `trainBatch` itself resets the
state. -/
theorem crossValidate_chains_classifier {σ : Type} (cats : List ℕ)
    (l : Learner σ) (k : ℕ) :
    (l.crossValidate cats k).1.classifier =
      stateBeforeFold l.classifierBuilder l.classifier (partitions l.dataset k)
        (partitions l.dataset k).length ∧
    ∀ i, i < (partitions l.dataset k).length →
      (cvFoldPairs l.classifierBuilder l.classifier (partitions l.dataset k)).getD i [] =
        (((partitions l.dataset k).getD i ([], [])).2).map fun s =>
          (l.classifierBuilder.classify
            (l.classifierBuilder.trainBatch
              (stateBeforeFold l.classifierBuilder l.classifier (partitions l.dataset k) i)
              ((partitions l.dataset k).getD i ([], [])).1)
            s.input, s.output) := by
  constructor
  · rw [crossValidate_eq]
  · exact cvFoldPairs_getD l.classifierBuilder (partitions l.dataset k) l.classifier

/-- Witness for the amended C5 theorem at a concrete instance. -/
theorem crossValidate_chains_classifier_witness :
    1 < (partitions ds4 2).length ∧
    (cvFoldPairs accClassifier [] (partitions ds4 2)).getD 1 [] =
      (((partitions ds4 2).getD 1 ([], [])).2).map fun s =>
        (accClassifier.classify
          (accClassifier.trainBatch
            (stateBeforeFold accClassifier [] (partitions ds4 2) 1)
            ((partitions ds4 2).getD 1 ([], [])).1)
          s.input, s.output) :=
  ⟨by decide,
   (crossValidate_chains_classifier [0, 1]
     (Learner.construct ds4 (3 / 4) accClassifier) 2).2 1 (by decide)⟩

/-- Claim C5 (counterexample): with the accumulating classifier, the state
entering fold `1`'s training on `ds4` with two folds is the whole of fold
`0`'s training set, not the freshly initialized state; accordingly the
classifier `crossValidate` leaves behind differs from what per-fold fresh
training would leave (training a fresh state on the last fold's training
set). -/
theorem crossValidate_fresh_counterexample :
    stateBeforeFold accClassifier
      (Learner.construct ds4 (3 / 4) accClassifier).classifier (partitions ds4 2) 1 ≠
      accClassifier.init ∧
    ((Learner.construct ds4 (3 / 4) accClassifier).crossValidate [0, 1] 2).1.classifier ≠
      accClassifier.trainBatch accClassifier.init ((partitions ds4 2).getD 1 ([], [])).1 := by
  constructor
  · decide
  · rw [crossValidate_eq]
    decide

/-- The split sizes and identity-disjointness of `trainTestSplit` on a valid
ratio: the training set takes exactly `round(r·|ds|)` samples, the two parts
cover the dataset, and (for identity-distinct samples) no sample identity
occurs on both sides. -/
theorem trainTestSplit_spec (ds : List Sample) (r : ℚ) (h0 : 0 < r) (h1 : r < 1)
    (hid : (ds.map Sample.id).Nodup) :
    (trainTestSplit ds r).1.length + (trainTestSplit ds r).2.length = ds.length ∧
    ((trainTestSplit ds r).1.length : ℤ) = round (r * ds.length) ∧
    ∀ s ∈ (trainTestSplit ds r).1, ∀ t ∈ (trainTestSplit ds r).2, s.id ≠ t.id := by
  have hub : round (r * ds.length) ≤ (ds.length : ℤ) := by
    rw [round_eq]
    have hle : ⌊r * (ds.length : ℚ) + 1 / 2⌋ ≤ ⌊(ds.length : ℚ) + 1 / 2⌋ := by
      apply Int.floor_le_floor
      have hmul : r * (ds.length : ℚ) ≤ 1 * (ds.length : ℚ) :=
        mul_le_mul_of_nonneg_right h1.le (by positivity)
      linarith
    refine hle.trans ?_
    rw [show ((ds.length : ℕ) : ℚ) = (((ds.length : ℕ) : ℤ) : ℚ) by push_cast; ring,
      Int.floor_int_add]
    norm_num
  have hlb : 0 ≤ round (r * ds.length) := by
    rw [round_eq]
    apply Int.le_floor.mpr
    have : (0 : ℚ) ≤ r * ds.length := by positivity
    push_cast
    linarith
  have hmz : (((round (r * ds.length)).toNat : ℕ) : ℤ) = round (r * ds.length) :=
    Int.toNat_of_nonneg hlb
  have hmn : (round (r * ds.length)).toNat ≤ ds.length := by
    have h := hub
    rw [← hmz] at h
    exact_mod_cast h
  refine ⟨?_, ?_, ?_⟩
  · show (ds.take (round (r * ds.length)).toNat).length +
      (ds.drop (round (r * ds.length)).toNat).length = ds.length
    rw [List.length_take, List.length_drop, min_eq_left hmn]
    omega
  · show ((ds.take (round (r * ds.length)).toNat).length : ℤ) = round (r * ds.length)
    rw [List.length_take, min_eq_left hmn, hmz]
  · intro s hs t ht he
    have hdisj := List.disjoint_take_drop (l := ds.map Sample.id) hid
      (Nat.le_refl (round (r * ds.length)).toNat)
    apply hdisj (a := s.id)
    · rw [← List.map_take]
      exact List.mem_map_of_mem _ hs
    · rw [he, ← List.map_drop]
      exact List.mem_map_of_mem _ ht

/-- Claim C7: constructing a Learner with dataset `D` and ratio `r ∈ (0,1)`
computes the split immediately: `|trainSet| + |testSet| = |D|`,
`|trainSet| = round(r·|D|)`, and the two sets are disjoint by identity. -/
theorem construct_split_properties {σ : Type} (cs : ClassifierSpec σ)
    (dataset : List Sample) (r : ℚ) (h0 : 0 < r) (h1 : r < 1)
    (hid : (dataset.map Sample.id).Nodup) :
    (Learner.construct dataset r cs).trainSet.length +
      (Learner.construct dataset r cs).testSet.length = dataset.length ∧
    ((Learner.construct dataset r cs).trainSet.length : ℤ) =
      round (r * dataset.length) ∧
    ∀ s ∈ (Learner.construct dataset r cs).trainSet,
      ∀ t ∈ (Learner.construct dataset r cs).testSet, s.id ≠ t.id :=
  trainTestSplit_spec dataset r h0 h1 hid

/-- Witness for Claim C7 at `ds4` with ratio `3/4`. -/
theorem construct_split_properties_witness :
    ((0 : ℚ) < 3 / 4 ∧ (3 / 4 : ℚ) < 1 ∧ (ds4.map Sample.id).Nodup) ∧
    ((Learner.construct ds4 (3 / 4) unitClassifier).trainSet.length +
      (Learner.construct ds4 (3 / 4) unitClassifier).testSet.length = ds4.length ∧
    ((Learner.construct ds4 (3 / 4) unitClassifier).trainSet.length : ℤ) =
      round ((3 / 4 : ℚ) * ds4.length) ∧
    ∀ s ∈ (Learner.construct ds4 (3 / 4) unitClassifier).trainSet,
      ∀ t ∈ (Learner.construct ds4 (3 / 4) unitClassifier).testSet, s.id ≠ t.id) :=
  ⟨⟨by norm_num, by norm_num, by decide⟩,
   construct_split_properties unitClassifier ds4 (3 / 4)
     (by norm_num) (by norm_num) (by decide)⟩

/-- The row of one category in the closed form of the partition table:
occurrence counts of that category in the dataset, in the dataset
restricted to the training set, and restricted to the test set. -/
def catCountsOf (trainSet testSet ds : List Sample) (c : ℕ) : CatCounts :=
  { overall := ds.countP (fun d => d.output == c),
    test := ds.countP (fun d => d.output == c && decide (d ∈ testSet)),
    train := ds.countP (fun d => d.output == c && decide (d ∈ trainSet)) }

/-- Looking a key up after bumping one key's value. -/
theorem lookupCat_bump (c : ℕ) (f : CatCounts → CatCounts) (x : ℕ) :
    ∀ (r : List (ℕ × CatCounts)),
      lookupCat (r.map fun p => if p.1 = c then (p.1, f p.2) else p) x =
        (lookupCat r x).map fun v => if x = c then f v else v := by
  intro r
  induction r with
  | nil => rfl
  | cons p r ih =>
    by_cases hpc : p.1 = c <;> by_cases hpx : p.1 = x <;>
      simp [lookupCat, hpc, hpx, ih] <;> simp_all

/-- Looking up the freshly initialised zero table. -/
theorem lookupCat_init (x : ℕ) :
    ∀ (cats : List ℕ),
      lookupCat (cats.map fun c => (c, (⟨0, 0, 0⟩ : CatCounts))) x =
        if x ∈ cats then some ⟨0, 0, 0⟩ else none := by
  intro cats
  induction cats with
  | nil => rfl
  | cons c cs ih =>
    by_cases h : c = x
    · simp [lookupCat, h]
    · have h2 : ¬x = c := fun hh => h hh.symm
      simp [lookupCat, h, ih, h2]

/-- Closed form of the `forEach` loop of `getCategoryPartition`: walking
`ds` over a table whose keys cover every output adds `catCountsOf` of `ds`
to every row. -/
theorem foldl_stepSample (trS teS : List Sample) :
    ∀ (ds : List Sample) (r : List (ℕ × CatCounts)),
      (∀ d ∈ ds, (lookupCat r d.output).isSome) →
      ds.foldl (stepSample trS teS) (some r) =
        some (r.map fun p => (p.1, addCC p.2 (catCountsOf trS teS ds p.1))) := by
  intro ds
  induction ds with
  | nil =>
    intro r _
    simp [catCountsOf, addCC]
  | cons d ds ih =>
    intro r h
    rw [List.foldl_cons]
    rw [show stepSample trS teS (some r) d =
        some (r.map fun p => if p.1 = d.output then (p.1, bumpEntry trS teS d p.2) else p)
      from by simp [stepSample, h d (List.mem_cons_self d ds)]]
    rw [ih _ (fun e he => by
      rw [lookupCat_bump]
      simpa using h e (List.mem_cons_of_mem d he))]
    rw [List.map_map]
    have hfun : ((fun p : ℕ × CatCounts => (p.1, addCC p.2 (catCountsOf trS teS ds p.1))) ∘
        fun p : ℕ × CatCounts =>
          if p.1 = d.output then (p.1, bumpEntry trS teS d p.2) else p) =
        fun p : ℕ × CatCounts => (p.1, addCC p.2 (catCountsOf trS teS (d :: ds) p.1)) := by
      funext p
      obtain ⟨c, cc⟩ := p
      by_cases hc : c = d.output
      · subst hc
        simp only [Function.comp_apply, if_pos rfl, Prod.mk.injEq, true_and,
          bumpEntry, addCC, catCountsOf, List.countP_cons, CatCounts.mk.injEq]
        refine ⟨?_, ?_, ?_⟩ <;> by_cases h1 : d ∈ teS <;> by_cases h2 : d ∈ trS <;>
          simp [h1, h2] <;> omega
      · have hne : (d.output == c) = false := by
          simp [Ne.symm hc]
        simp [Function.comp, hc, addCC, catCountsOf, List.countP_cons, hne]
    rw [hfun]

/-- When every output of the dataset is a known category, the partition
table `getCategoryPartition` builds is exactly one `catCountsOf` row per
category. -/
theorem getCategoryPartition_eq {σ : Type} (cats : List ℕ) (l : Learner σ)
    (hcov : ∀ d ∈ l.dataset, d.output ∈ cats) :
    (l.getCategoryPartition cats).2 =
      some (cats.map fun c => (c, catCountsOf l.trainSet l.testSet l.dataset c)) := by
  show l.dataset.foldl (stepSample l.trainSet l.testSet)
      (some (cats.map fun c => (c, ⟨0, 0, 0⟩))) = _
  rw [foldl_stepSample _ _ _ _ (fun d hd => by
    rw [lookupCat_init]
    simp [hcov d hd])]
  rw [List.map_map]
  have hfun : ((fun p : ℕ × CatCounts =>
      (p.1, addCC p.2 (catCountsOf l.trainSet l.testSet l.dataset p.1))) ∘
      fun c : ℕ => (c, (⟨0, 0, 0⟩ : CatCounts))) =
      fun c : ℕ => (c, catCountsOf l.trainSet l.testSet l.dataset c) := by
    funext c
    simp [Function.comp, addCC, catCountsOf]
  rw [hfun]

/-- Splitting an occurrence count over an exact train/test cover: when every
dataset sample lies in exactly one of the two sets, the per-category count
is the sum of its train and test parts. -/
theorem countP_mem_split (trS teS : List Sample) (c : ℕ) :
    ∀ (ds : List Sample),
      (∀ d ∈ ds, (d ∈ trS ∧ d ∉ teS) ∨ (d ∉ trS ∧ d ∈ teS)) →
      ds.countP (fun d => d.output == c) =
        ds.countP (fun d => d.output == c && decide (d ∈ trS)) +
        ds.countP (fun d => d.output == c && decide (d ∈ teS)) := by
  intro ds
  induction ds with
  | nil => intro _; rfl
  | cons d ds ih =>
    intro h
    have hd := h d (List.mem_cons_self d ds)
    have hrest := ih fun e he => h e (List.mem_cons_of_mem d he)
    simp only [List.countP_cons]
    rcases hd with ⟨h1, h2⟩ | ⟨h1, h2⟩ <;> by_cases hc : d.output = c <;>
      simp [h1, h2, hc, hrest] <;> omega

/-- Summing the indicator of one value over a duplicate-free list. -/
theorem sum_indicator_nodup (y : ℕ) :
    ∀ (cats : List ℕ), cats.Nodup →
      ((cats.map fun c => if y = c then (1 : ℕ) else 0).sum) =
        if y ∈ cats then 1 else 0 := by
  intro cats
  induction cats with
  | nil => intro _; rfl
  | cons c cs ih =>
    intro hnd
    have hns := List.nodup_cons.mp hnd
    by_cases h : y = c
    · subst h
      simp [hns.1, ih hns.2]
    · simp [h, ih hns.2]

/-- The per-category occurrence counts of a dataset whose outputs all lie in
a duplicate-free category list sum to the dataset's size. -/
theorem sum_overall (cats : List ℕ) (hnd : cats.Nodup) :
    ∀ (ds : List Sample), (∀ d ∈ ds, d.output ∈ cats) →
      ((cats.map fun c => ds.countP (fun d => d.output == c)).sum) = ds.length := by
  intro ds
  induction ds with
  | nil =>
    intro _
    simp
  | cons d ds ih =>
    intro h
    have hrest := ih fun e he => h e (List.mem_cons_of_mem d he)
    have hmem := h d (List.mem_cons_self d ds)
    simp only [List.countP_cons]
    have hsplit :
        ((cats.map fun c =>
          ds.countP (fun e => e.output == c) +
            if (fun e => e.output == c) d then 1 else 0).sum) =
        ((cats.map fun c => ds.countP (fun e => e.output == c)).sum) +
          ((cats.map fun c => if d.output = c then (1 : ℕ) else 0).sum) := by
      induction cats with
      | nil => rfl
      | cons c cs ihc =>
        simp only [List.map_cons, List.sum_cons, ihc]
        simp [beq_iff_eq]
        omega
    rw [hsplit, hrest, sum_indicator_nodup d.output cats hnd]
    simp [hmem]

/-- Claim C10: for a Learner whose `trainSet`/`testSet` cover the dataset
with each sample in exactly one of the two (identity-disjoint cover) and
whose outputs all lie in the (duplicate-free) category enumeration,
`getCategoryPartition()` succeeds, each category's row satisfies
`overall = train + test`, the overall counts sum to `|dataset|`, and the
call leaves the Learner unchanged. -/
theorem getCategoryPartition_invariants {σ : Type} (cats : List ℕ) (l : Learner σ)
    (hnd : cats.Nodup)
    (hcov : ∀ d ∈ l.dataset, d.output ∈ cats)
    (hpart : ∀ d ∈ l.dataset,
      (d ∈ l.trainSet ∧ d ∉ l.testSet) ∨ (d ∉ l.trainSet ∧ d ∈ l.testSet)) :
    (l.getCategoryPartition cats).1 = l ∧
    (l.getCategoryPartition cats).2 =
      some (cats.map fun c => (c, catCountsOf l.trainSet l.testSet l.dataset c)) ∧
    (∀ p ∈ cats.map fun c => (c, catCountsOf l.trainSet l.testSet l.dataset c),
      p.2.overall = p.2.train + p.2.test) ∧
    ((cats.map fun c => (c, catCountsOf l.trainSet l.testSet l.dataset c)).map
      (fun p => p.2.overall)).sum = l.dataset.length := by
  refine ⟨rfl, getCategoryPartition_eq cats l hcov, ?_, ?_⟩
  · intro p hp
    obtain ⟨c, hc, hpc⟩ := List.mem_map.mp hp
    rw [← hpc]
    show (catCountsOf l.trainSet l.testSet l.dataset c).overall = _
    rw [show (catCountsOf l.trainSet l.testSet l.dataset c).overall =
      l.dataset.countP (fun d => d.output == c) from rfl]
    rw [countP_mem_split l.trainSet l.testSet c l.dataset hpart]
    rfl
  · rw [List.map_map]
    rw [show ((fun p : ℕ × CatCounts => p.2.overall) ∘
        fun c => (c, catCountsOf l.trainSet l.testSet l.dataset c)) =
        fun c : ℕ => l.dataset.countP (fun d => d.output == c) from rfl]
    exact sum_overall cats hnd l.dataset hcov

/-- A concrete Learner whose split fields are explicit lists forming an
exact cover of `ds4`. -/
def learnerFix : Learner Unit :=
  { dataset := ds4, trainSplit := 3 / 4,
    trainSet := [sample0, sample1, sample2], testSet := [sample3],
    classifier := (), classifierBuilder := unitClassifier,
    macroAvg := none, microAvg := none }

/-- Witness for Claim C10 on the concrete `learnerFix` with categories
`[0, 1]`. -/
theorem getCategoryPartition_invariants_witness :
    ([0, 1] : List ℕ).Nodup ∧
    (∀ d ∈ learnerFix.dataset, d.output ∈ ([0, 1] : List ℕ)) ∧
    (∀ d ∈ learnerFix.dataset,
      (d ∈ learnerFix.trainSet ∧ d ∉ learnerFix.testSet) ∨
      (d ∉ learnerFix.trainSet ∧ d ∈ learnerFix.testSet)) ∧
    ((learnerFix.getCategoryPartition [0, 1]).1 = learnerFix ∧
     (learnerFix.getCategoryPartition [0, 1]).2 =
       some (([0, 1] : List ℕ).map fun c =>
         (c, catCountsOf learnerFix.trainSet learnerFix.testSet learnerFix.dataset c)) ∧
     (∀ p ∈ ([0, 1] : List ℕ).map fun c =>
         (c, catCountsOf learnerFix.trainSet learnerFix.testSet learnerFix.dataset c),
       p.2.overall = p.2.train + p.2.test) ∧
     ((([0, 1] : List ℕ).map fun c =>
         (c, catCountsOf learnerFix.trainSet learnerFix.testSet learnerFix.dataset c)).map
       (fun p => p.2.overall)).sum = learnerFix.dataset.length) :=
  ⟨by decide, by decide, by decide,
   getCategoryPartition_invariants [0, 1] learnerFix (by decide) (by decide) (by decide)⟩

/-- Closed form of a successful `getStats()`: with stats available and every
output a known category, the report is assembled from the micro accumulator
field by field. -/
theorem getStats_ok {σ : Type} (cats : List ℕ) (l : Learner σ)
    (m : PrecisionRecall) (hm : l.microAvg = some m)
    (hcov : ∀ d ∈ l.dataset, d.output ∈ cats) :
    l.getStats cats =
      .ok { TP := m.TP, TN := m.TN, FP := m.FP, FN := m.FN,
            confusion := m.confusion,
            Precision := m.Precision, Accuracy := m.Accuracy,
            Recall := m.Recall, F1 := m.F1,
            Specificity := jsDivN m.TN (m.FP + m.TN),
            totalCount := m.count,
            trainCount := l.trainSet.length, testCount := l.testSet.length,
            categoryPartition := cats.map fun c =>
              (c, catCountsOf l.trainSet l.testSet l.dataset c) } := by
  unfold Learner.getStats
  rw [hm, getCategoryPartition_eq cats l hcov]

/-- Claim C3: `getStats()` on a Learner on which cross-validation has not
run (`microAvg` unset) fails with `NoStatsAvailable`; once stats exist (and
the dataset's outputs are known categories, as the dataset contract
guarantees), it returns the consolidated report — confusion counts, the
ratio fields, the confusion record, total/train/test counts, and per-category
partition counts — derived from the stored micro accumulator. -/
theorem getStats_requires_stats {σ : Type} (cats : List ℕ) (l : Learner σ) :
    (l.microAvg = none → l.getStats cats = .error .NoStatsAvailable) ∧
    (∀ m, l.microAvg = some m → (∀ d ∈ l.dataset, d.output ∈ cats) →
      l.getStats cats =
        .ok { TP := m.TP, TN := m.TN, FP := m.FP, FN := m.FN,
              confusion := m.confusion,
              Precision := m.Precision, Accuracy := m.Accuracy,
              Recall := m.Recall, F1 := m.F1,
              Specificity := jsDivN m.TN (m.FP + m.TN),
              totalCount := m.count,
              trainCount := l.trainSet.length, testCount := l.testSet.length,
              categoryPartition := cats.map fun c =>
                (c, catCountsOf l.trainSet l.testSet l.dataset c) }) := by
  constructor
  · intro hnone
    unfold Learner.getStats
    rw [hnone]
  · intro m hm hcov
    exact getStats_ok cats l m hm hcov

/-- The `learnerFix` Learner after storing an (empty) micro accumulator. -/
def learnerFixStats : Learner Unit :=
  { learnerFix with microAvg := some PrecisionRecall.empty }

/-- Witness for Claim C3: both branches at concrete Learners. -/
theorem getStats_requires_stats_witness :
    (learnerFix.microAvg = none ∧
     learnerFix.getStats [0, 1] = .error .NoStatsAvailable) ∧
    (learnerFixStats.microAvg = some PrecisionRecall.empty ∧
     (∀ d ∈ learnerFixStats.dataset, d.output ∈ ([0, 1] : List ℕ)) ∧
     learnerFixStats.getStats [0, 1] =
       .ok { TP := PrecisionRecall.empty.TP, TN := PrecisionRecall.empty.TN,
             FP := PrecisionRecall.empty.FP, FN := PrecisionRecall.empty.FN,
             confusion := PrecisionRecall.empty.confusion,
             Precision := PrecisionRecall.empty.Precision,
             Accuracy := PrecisionRecall.empty.Accuracy,
             Recall := PrecisionRecall.empty.Recall,
             F1 := PrecisionRecall.empty.F1,
             Specificity := jsDivN PrecisionRecall.empty.TN
               (PrecisionRecall.empty.FP + PrecisionRecall.empty.TN),
             totalCount := PrecisionRecall.empty.count,
             trainCount := learnerFixStats.trainSet.length,
             testCount := learnerFixStats.testSet.length,
             categoryPartition := ([0, 1] : List ℕ).map fun c =>
               (c, catCountsOf learnerFixStats.trainSet learnerFixStats.testSet
                 learnerFixStats.dataset c) }) :=
  ⟨⟨rfl, (getStats_requires_stats [0, 1] learnerFix).1 rfl⟩,
   ⟨rfl, by decide,
    (getStats_requires_stats [0, 1] learnerFixStats).2 PrecisionRecall.empty rfl
      (by decide)⟩⟩

/-- Claim C9: `getStats()` computes `Specificity` as `TN/(FP+TN)` from the
pooled micro counts with no guard: whenever `FP + TN = 0` the report is
still produced (no error raised) and its Specificity is the non-numeric
`NaN`. -/
theorem getStats_specificity_unguarded {σ : Type} (cats : List ℕ) (l : Learner σ)
    (m : PrecisionRecall) (hm : l.microAvg = some m) (hz : m.FP + m.TN = 0)
    (hcov : ∀ d ∈ l.dataset, d.output ∈ cats) :
    ∃ s, l.getStats cats = .ok s ∧ s.Specificity = JSNum.nan := by
  refine ⟨_, getStats_ok cats l m hm hcov, ?_⟩
  show jsDivN m.TN (m.FP + m.TN) = JSNum.nan
  have hTN : m.TN = 0 := by omega
  rw [hz, hTN]
  show jsDiv (.num ((0 : ℕ) : ℚ)) (.num ((0 : ℕ) : ℚ)) = JSNum.nan
  norm_num [jsDiv]

/-- Witness for Claim C9 on `learnerFixStats`, whose stored micro
accumulator has `FP + TN = 0`. -/
theorem getStats_specificity_unguarded_witness :
    (learnerFixStats.microAvg = some PrecisionRecall.empty ∧
     PrecisionRecall.empty.FP + PrecisionRecall.empty.TN = 0 ∧
     (∀ d ∈ learnerFixStats.dataset, d.output ∈ ([0, 1] : List ℕ))) ∧
    ∃ s, learnerFixStats.getStats [0, 1] = .ok s ∧ s.Specificity = JSNum.nan :=
  ⟨⟨rfl, rfl, by decide⟩,
   getStats_specificity_unguarded [0, 1] learnerFixStats PrecisionRecall.empty
     rfl rfl (by decide)⟩

/-- Claim C4: `Learner.fromJSON` on any JSON object lacking the
`classifier` property fails with `MissingClassifier` — an error is returned,
never a partially reconstructed Learner. -/
theorem fromJSON_missing_classifier {σ : Type} (defaultDataset : List Sample)
    (defaultBuilder : ClassifierSpec σ) (json : LearnerJSON σ)
    (h : json.classifier = none) :
    Learner.fromJSON defaultDataset defaultBuilder json =
      .error .MissingClassifier := by
  unfold Learner.fromJSON
  rw [h]

/-- A concrete JSON object with every property except `classifier`. -/
def jsonNoClassifier : LearnerJSON Unit :=
  { classifier := none, classifierBuilder := some unitClassifier,
    dataset := some ds4, trainSplit := some (3 / 4),
    trainSet := some [sample0, sample1, sample2], testSet := some [sample3],
    macroAvg := none, microAvg := none }

/-- Witness for Claim C4 at `jsonNoClassifier`. -/
theorem fromJSON_missing_classifier_witness :
    jsonNoClassifier.classifier = none ∧
    Learner.fromJSON ds4 unitClassifier jsonNoClassifier =
      .error .MissingClassifier :=
  ⟨rfl, fromJSON_missing_classifier ds4 unitClassifier jsonNoClassifier rfl⟩

/-- Claim C6: under the serialization contract
(`deserialize ∘ serialize = some`), `fromJSON` of `toJSON` reconstructs the
Learner exactly — same dataset, trainSplit, trainSet, testSet,
classifierBuilder and stored accumulators, with a classifier behaviorally
equivalent to the original (indeed the same state, so every `classify`
output agrees). -/
theorem fromJSON_toJSON_roundtrip {σ : Type} (defaultDataset : List Sample)
    (defaultBuilder : ClassifierSpec σ) (l : Learner σ)
    (hcontract : ∀ c : σ,
      l.classifierBuilder.deserialize (l.classifierBuilder.serialize c) = some c) :
    Learner.fromJSON defaultDataset defaultBuilder l.toJSON = .ok l ∧
    ∀ x : ℕ,
      (Learner.fromJSON defaultDataset defaultBuilder l.toJSON).map
        (fun l' => l'.classifyData x) = .ok (l.classifyData x) := by
  have hmain : Learner.fromJSON defaultDataset defaultBuilder l.toJSON = .ok l := by
    unfold Learner.fromJSON Learner.toJSON
    simp only [Option.getD_some, Learner.serializeClassifier]
    rw [hcontract l.classifier]
    rfl
  exact ⟨hmain, fun x => by rw [hmain]; rfl⟩

/-- Witness for Claim C6 at `learnerFix` (the `Unit`-state classifier
satisfies the serialization contract definitionally). -/
theorem fromJSON_toJSON_roundtrip_witness :
    (∀ c : Unit,
      learnerFix.classifierBuilder.deserialize
        (learnerFix.classifierBuilder.serialize c) = some c) ∧
    (Learner.fromJSON ds4 unitClassifier learnerFix.toJSON = .ok learnerFix ∧
     ∀ x : ℕ,
       (Learner.fromJSON ds4 unitClassifier learnerFix.toJSON).map
         (fun l' => l'.classifyData x) = .ok (learnerFix.classifyData x)) :=
  ⟨fun _ => rfl,
   fromJSON_toJSON_roundtrip ds4 unitClassifier learnerFix fun _ => rfl⟩

/-- Claim C8: on a write failure the save callback leaves the promise
rejected with the I/O error (the late `resolve` is a no-op), as the claim
says; but on a read failure the load callback, after rejecting, still goes
on to deserialize the missing (`undefined`) data — the deserializer throws
and the exception escapes the callback — contradicting "no further
processing of the missing data".  The missing `return` after `reject(err)`
at src/index.js:79 is the slip. -/
theorem loadCallback_deserializes_after_reject :
    saveCallback (ε := ℕ) "serialized" (some 7) = PromiseState.rejected 7 ∧
    loadCallback (ε := ℕ) unitClassifier (some 7) none =
      CallbackRun.threw (PromiseState.rejected 7) :=
  ⟨rfl, rfl⟩
